import Mathlib

/-!
Verification of the LDT1 file-transfer program (server `server.py`,
clients `Client.py` / `CLI-Client.py`) against its specification.

Modelling conventions (shallow embedding):
* Python strings are modelled as `List Char`; byte strings as `List Nat`
  (each entry one byte value).
* Filesystem paths are modelled as lists of path segments below the
  filesystem root.  `os.path.abspath`/`os.path.normpath` become
  `normSegs` (drops empty and `.` segments, `..` pops the previous
  segment, clamped at the root, exactly as `normpath` does for absolute
  paths).  The canonical string form of an absolute path is
  `renderAbs` (a leading separator, segments joined by `/`); Windows
  drive-letter idiosyncrasies (drive-relative paths such as `C:x`) are
  outside the model.
* The configured server root `ROOT = os.path.abspath("D:/")` is a drive
  root: its canonical string ends with the separator and it has no
  segments below the filesystem root, hence `ROOT = []` here.  Theorems
  about `safe_path` are proved for an arbitrary root (`validRoot`),
  which subsumes the configured one.
* Fallible Python code (raising exceptions) is modelled with
  `Option`/`Except`.
* The socket is modelled as the list of bytes that will be received, in
  order; a blocking `recv` that runs out of bytes is the
  connection-closed error.
-/

/-- Python strings (sequences of characters). -/
abbrev PyStr := List Char

/-- Characters treated as path separators by `os.path` on Windows. -/
def isSep (c : Char) : Bool := c = '/' || c = '\\'

/-- The field separator of the wire listing / GET formats. -/
def isPipe (c : Char) : Bool := c = '|'

/-- `rel_path.lstrip("\\/ ")` from `safe_path` (server.py line 53). -/
def stripLeading (s : PyStr) : PyStr :=
  s.dropWhile (fun c => isSep c || c = ' ')

/-- Splitting a character list at every character satisfying `p`
(the splitting that `str.split` and path normalisation perform). -/
def splitBy (p : Char → Bool) : List Char → List (List Char)
  | [] => [[]]
  | c :: cs =>
    if p c then [] :: splitBy p cs
    else
      match splitBy p cs with
      | [] => [[c]]
      | s :: rest => (c :: s) :: rest

/-- One step of `os.path.normpath` over the segments of an absolute
path: empty and `.` segments vanish, `..` removes the previous segment
(clamped at the filesystem root). -/
def normStep (acc : List PyStr) (s : PyStr) : List PyStr :=
  if s = [] || s = ['.'] then acc
  else if s = ['.', '.'] then acc.dropLast
  else acc ++ [s]

/-- `os.path.normpath` on the segment list of an absolute path. -/
def normSegs (xs : List PyStr) : List PyStr :=
  xs.foldl normStep []

/-- Segments joined by `/` (no leading separator). -/
def render : List PyStr → List Char
  | [] => []
  | [s] => s
  | s :: rest => s ++ '/' :: render rest

/-- Canonical string of the absolute path with the given segments:
a leading separator, then the segments joined by `/`.  The filesystem
root itself renders as the bare separator. -/
def renderAbs (segs : List PyStr) : List Char := '/' :: render segs

/-- `os.path.join(ROOT, "")` (server.py line 58): the root's canonical
string with a trailing separator ensured.  The filesystem root already
ends with the separator, so nothing is appended there. -/
def rootPrefixStr (root : List PyStr) : List Char :=
  if root = [] then renderAbs root else renderAbs root ++ ['/']

/-- `safe_path` (server.py lines 50-61): strip leading slashes,
backslashes and spaces from the client path, join it under the root,
canonicalise, and keep the result only when its canonical string starts
with the root's separator-terminated string; otherwise the function
raises (modelled as `none`). -/
def safe_path (root : List PyStr) (rel_path : PyStr) : Option (List PyStr) :=
  let stripped := stripLeading rel_path
  let full := normSegs (root ++ splitBy isSep stripped)
  if (rootPrefixStr root).isPrefixOf (renderAbs full) then some full else none

/-- The configured server root, `ROOT = os.path.abspath("D:/")`
(server.py line 7): a drive root, i.e. the filesystem root of the
model, with no segments below it. -/
def ROOT : List PyStr := []

/-- A root whose segments contain no separator characters — true of
every canonical absolute path, in particular of the configured `ROOT`. -/
def validRoot (root : List PyStr) : Prop :=
  ∀ s ∈ root, ∀ c ∈ s, isSep c = false

instance (root : List PyStr) : Decidable (validRoot root) := by
  unfold validRoot; infer_instance

/-- An optional resolved path lies inside the root: either resolution
failed, or the root's segments are a prefix of the result's. -/
def withinRoot (root : List PyStr) (o : Option (List PyStr)) : Prop :=
  match o with
  | none => True
  | some p => root <+: p

/-- Result of a successful `os.stat` call. -/
structure Stat where
  st_size : Nat
  st_mtime : Int
deriving DecidableEq

/-- An abstract filesystem, the ambient state the server reads.
`listdir` and `stat` return `none` where the Python call raises
(`PermissionError` / `OSError`); the other queries never raise. -/
structure FS where
  isdir : List PyStr → Bool
  isfile : List PyStr → Bool
  listdir : List PyStr → Option (List PyStr)
  stat : List PyStr → Option Stat
  content : List PyStr → List Nat

/-- One record produced by `list_dir` (server.py lines 75-80). -/
structure Entry where
  name : PyStr
  dir : Bool
  size : Nat
  mtime : Int
deriving DecidableEq

/-- The record `list_dir` builds for child `name` of directory `full`,
when `os.stat` succeeds on it (`none` when it raises and the child is
skipped). -/
def entryOf (fs : FS) (full : List PyStr) (name : PyStr) : Option Entry :=
  match fs.stat (full ++ [name]) with
  | none => none
  | some st =>
    some { name := name
           dir := fs.isdir (full ++ [name])
           size := if fs.isdir (full ++ [name]) then 0 else st.st_size
           mtime := st.st_mtime }

/-- The same record as a total function (the `none` branch is never
used on children whose stat succeeds). -/
def entryVal (fs : FS) (full : List PyStr) (name : PyStr) : Entry :=
  match fs.stat (full ++ [name]) with
  | none => { name := [], dir := false, size := 0, mtime := 0 }
  | some st =>
    { name := name
      dir := fs.isdir (full ++ [name])
      size := if fs.isdir (full ++ [name]) then 0 else st.st_size
      mtime := st.st_mtime }

/-- `list_dir` (server.py lines 63-85): resolve the path through the
sandbox, return `[]` when resolution raises, the target is not a
directory, or `os.listdir` raises; otherwise stat each child,
skipping children whose stat raises. -/
def list_dir (fs : FS) (root : List PyStr) (rel : PyStr) : List Entry :=
  match safe_path root rel with
  | none => []
  | some full =>
    if fs.isdir full then
      match fs.listdir full with
      | none => []
      | some names => names.filterMap (entryOf fs full)
    else []

/-- The wire magic `b"LDT1"` (server.py line 9). -/
def MAGIC : List Nat := [76, 68, 84, 49]

/-- Message type constants (server.py lines 12-17). -/
def TYPE_LIST : Nat := 1

/-- LIST response type byte. -/
def TYPE_LIST_RESP : Nat := 2

/-- GET request type byte. -/
def TYPE_GET : Nat := 3

/-- META (size report) type byte. -/
def TYPE_META : Nat := 4

/-- CHUNK type byte. -/
def TYPE_CHUNK : Nat := 5

/-- Reserved error type byte. -/
def TYPE_ERR : Nat := 7

/-- Big-endian 4-byte encoding of a `uint32` (the `I` of
`struct.pack(">BI", ...)`). -/
def be4 (n : Nat) : List Nat :=
  [n / 16777216 % 256, n / 65536 % 256, n / 256 % 256, n % 256]

/-- Big-endian decoding of 4 bytes (the inverse direction of
`struct.unpack(">BI", ...)`). -/
def de4 (l : List Nat) : Nat :=
  ((l.getD 0 0 * 256 + l.getD 1 0) * 256 + l.getD 2 0) * 256 + l.getD 3 0

/-- `pack` (server.py lines 21-23, identically Client.py line 20 and
CLI-Client.py line 64): magic, one type byte, big-endian 4-byte payload
length, then the payload.  `struct.pack(">BI", ...)` additionally
requires `msg_type < 256` and `len(payload) < 2^32`; theorems carry
those bounds as hypotheses. -/
def pack (msg_type : Nat) (payload : List Nat) : List Nat :=
  MAGIC ++ msg_type :: be4 payload.length ++ payload

/-- Errors of the server-side receive path: the peer closed (or a
socket error occurred) mid-read, or the magic did not match. -/
inductive RecvErr where
  | closed : RecvErr
  | badMagic : RecvErr
deriving DecidableEq

/-- Errors of the client-side receive path; `errPkt` carries the
payload of a received ERR packet. -/
inductive CRecvErr where
  | closed : CRecvErr
  | badMagic : CRecvErr
  | errPkt : List Nat → CRecvErr
deriving DecidableEq

/-- `recv_exact` (server.py lines 25-36): block until `n` bytes are
read; a stream that runs out is the connection-closed error.  Returns
the bytes read and the rest of the stream. -/
def recv_exact (n : Nat) (s : List Nat) : Except RecvErr (List Nat × List Nat) :=
  if n ≤ s.length then .ok (s.take n, s.drop n) else .error RecvErr.closed

/-- `recv_packet` on the server (server.py lines 38-48): read and check
the 4-byte magic, read the 5-byte type/length header, then read the
payload.  Returns the packet and the remaining stream.  Note that it
has no special case for `TYPE_ERR`. -/
def recv_packet_srv (s : List Nat) : Except RecvErr ((Nat × List Nat) × List Nat) :=
  match recv_exact 4 s with
  | .error e => .error e
  | .ok (magic, s1) =>
    if magic = MAGIC then
      match recv_exact 5 s1 with
      | .error e => .error e
      | .ok (header, s2) =>
        match recv_exact (de4 (header.drop 1)) s2 with
        | .error e => .error e
        | .ok (payload, s3) => .ok ((header.getD 0 0, payload), s3)
    else .error RecvErr.badMagic

/-- `recv_packet` on the clients (Client.py lines 34-42 and
CLI-Client.py lines 84-95): as on the server, but a packet whose type
is `TYPE_ERR` makes the call itself fail, carrying the packet's
payload (its best-effort decoded text is the raised message). -/
def recv_packet_cli (s : List Nat) : Except CRecvErr ((Nat × List Nat) × List Nat) :=
  match recv_exact 4 s with
  | .error _ => .error CRecvErr.closed
  | .ok (magic, s1) =>
    if magic = MAGIC then
      match recv_exact 5 s1 with
      | .error _ => .error CRecvErr.closed
      | .ok (header, s2) =>
        match recv_exact (de4 (header.drop 1)) s2 with
        | .error _ => .error CRecvErr.closed
        | .ok (payload, s3) =>
          if header.getD 0 0 = TYPE_ERR then .error (CRecvErr.errPkt payload)
          else .ok ((header.getD 0 0, payload), s3)
    else .error CRecvErr.badMagic

/-- `CHUNK_SIZE = 1024 * 1024` (server.py line 19). -/
def CHUNK_SIZE : Nat := 1024 * 1024

/-- The chunk loop of the GET handler (server.py lines 129-138), with
explicit fuel: read `min(CHUNK_SIZE, remaining)` bytes at the current
position, stop on an empty read, otherwise emit the chunk and continue.
Each iteration consumes at least one byte of `remaining`, so fuel
`remaining` makes the loop exact (`stream_chunks`). -/
def stream_loop (content : List Nat) : Nat → Nat → Nat → List (List Nat)
  | 0, _, _ => []
  | fuel + 1, pos, remaining =>
    if remaining = 0 then []
    else
      let chunk := (content.drop pos).take (min CHUNK_SIZE remaining)
      if chunk = [] then []
      else chunk :: stream_loop content fuel (pos + chunk.length) (remaining - chunk.length)

/-- The chunk packets the GET handler emits for a file with the given
content, starting at byte `pos`, for `remaining` requested bytes. -/
def stream_chunks (content : List Nat) (pos remaining : Nat) : List (List Nat) :=
  stream_loop content remaining pos remaining

/-- `start = max(0, int(start_str))` (server.py line 118). -/
def clip_start (si : Int) : Int := max 0 si

/-- The `end` clipping (server.py lines 120-122): a negative end or one
past the file size becomes the file size. -/
def clip_end (fileSize : Nat) (ei : Int) : Int :=
  if ei < 0 ∨ ei > (fileSize : Int) then (fileSize : Int) else ei

/-- Python `int(...)` on the decimal strings of the wire format: an
optional sign followed by at least one digit (surrounding whitespace
and underscore digit grouping, which no peer emits, are not modelled). -/
def digitsVal? (l : List Char) : Option Nat :=
  if l = [] then none
  else
    l.foldl
      (fun acc c =>
        match acc with
        | none => none
        | some n => if '0' ≤ c ∧ c ≤ '9' then some (n * 10 + (c.toNat - 48)) else none)
      (some 0)

/-- Python `int(...)` producing an integer, `none` where it raises
`ValueError`. -/
def parseInt : PyStr → Option Int
  | '-' :: rest => (digitsVal? rest).map (fun n => -(n : Int))
  | '+' :: rest => (digitsVal? rest).map (fun n => (n : Int))
  | l => (digitsVal? l).map (fun n => (n : Int))

/-- Failures of the GET branch of `handle_client`, each of which makes
the dispatcher send one ERR packet and close the connection. -/
inductive SrvErr where
  | badFormat : SrvErr
  | security : SrvErr
  | notFound : SrvErr
  | badInt : SrvErr
deriving DecidableEq

/-- Everything the GET branch sends and the values of its local
variables: the resolved path it opened, the total file size it reports
in the META packet, the clipped `start` and `end`, and the emitted
chunk payloads. -/
structure GetOut where
  full : List PyStr
  fileSize : Nat
  startPos : Nat
  endPos : Nat
  chunks : List (List Nat)
deriving DecidableEq

/-- The GET branch of `handle_client` (server.py lines 105-138): split
the payload on `|` into exactly three fields, resolve the path through
the sandbox, require a regular file, parse the range bounds, clip them,
then send one META packet with the total file size followed by the
chunk stream when the clipped range is non-empty. -/
def handle_get (fs : FS) (root : List PyStr) (payload : PyStr) : Except SrvErr GetOut :=
  match splitBy isPipe payload with
  | [path, startStr, endStr] =>
    match safe_path root path with
    | some full =>
      if fs.isfile full then
        match parseInt startStr, parseInt endStr with
        | some si, some ei =>
          .ok { full := full
                fileSize := (fs.content full).length
                startPos := (clip_start si).toNat
                endPos := (clip_end (fs.content full).length ei).toNat
                chunks :=
                  if clip_start si < clip_end (fs.content full).length ei then
                    stream_chunks (fs.content full) (clip_start si).toNat
                      (clip_end (fs.content full).length ei - clip_start si).toNat
                  else [] }
        | _, _ => .error SrvErr.badInt
      else .error SrvErr.notFound
    | none => .error SrvErr.security
  | _ => .error SrvErr.badFormat

/-- The path the GET branch opened (its `full_path` variable), when it
got that far. -/
def getOpened (fs : FS) (root : List PyStr) (payload : PyStr) : Option (List PyStr) :=
  match handle_get fs root payload with
  | .ok out => some out.full
  | .error _ => none

/-- The decimal ASCII bytes of a natural number, the META payload
`str(file_size).encode('utf-8')` (server.py line 125). -/
def natToDecimal (n : Nat) : List Nat := (Nat.toDigits 10 n).map Char.toNat

/-- The full packet sequence the GET branch writes to the socket: one
META packet with the decimal total size, then one CHUNK packet per
emitted chunk (server.py lines 125-137). -/
def get_response (out : GetOut) : List (List Nat) :=
  pack TYPE_META (natToDecimal out.fileSize) :: out.chunks.map (fun c => pack TYPE_CHUNK c)

/-- One parsed record of the client-side listing parsers. -/
structure ClientEntry where
  name : PyStr
  dir : Bool
  size : Int
  mtime : Int
deriving DecidableEq

/-- Whitespace for `str.strip()` as the listing parsers use it on
single lines. -/
def isWhite (c : Char) : Bool := c = ' ' || c = '\t' || c = '\r' || c = '\x0b' || c = '\x0c'

/-- A line that `line.strip()` reduces to the empty string. -/
def isBlank (l : PyStr) : Bool := l.all isWhite

/-- `str.splitlines()` on newline-joined data (the server joins records
with `"\n"` only).  A trailing empty fragment is produced where Python
produces none, but such a fragment is blank and every consumer below
skips blank lines, so the difference is unobservable. -/
def splitLines (s : PyStr) : List PyStr := splitBy (fun c => c = '\n') s

/-- The record loop shared by `API.list` (Client.py lines 76-84) and
`FileBrowser.list_directory` (CLI-Client.py lines 131-145): skip blank
lines, skip lines that do not split on `|` into exactly four fields,
and build a record from the remaining lines with `bool(int(d))`,
`int(sz)`, `int(mt)`.  An `int()` that raises aborts the whole call
(the surrounding `except` reports failure), modelled as `none`. -/
def parse_lines : List PyStr → Option (List ClientEntry)
  | [] => some []
  | line :: rest =>
    if isBlank line then parse_lines rest
    else
      match splitBy isPipe line with
      | [n, d, sz, mt] =>
        match parseInt d, parseInt sz, parseInt mt with
        | some di, some szi, some mti =>
          (parse_lines rest).map
            (fun items => { name := n, dir := di != 0, size := szi, mtime := mti } :: items)
        | _, _, _ => none
      | _ => parse_lines rest

/-- The listing parser applied to a LIST_RESP payload (decoded text). -/
def parse_listing (data : PyStr) : Option (List ClientEntry) :=
  parse_lines (splitLines data)

/-- Whether the record loop keeps a line: non-blank and exactly four
`|`-separated fields. -/
def keepLine (l : PyStr) : Bool :=
  !(isBlank l) && (splitBy isPipe l).length = 4

/-- The record built from a kept line (on lines whose numeric fields
parse; otherwise a dummy record that the theorems never reach). -/
def lineEntry (l : PyStr) : ClientEntry :=
  match splitBy isPipe l with
  | [n, d, sz, mt] =>
    match parseInt d, parseInt sz, parseInt mt with
    | some di, some szi, some mti => { name := n, dir := di != 0, size := szi, mtime := mti }
    | _, _, _ => { name := [], dir := false, size := 0, mtime := 0 }
  | _ => { name := [], dir := false, size := 0, mtime := 0 }

/-- A line the record loop can process without raising: blank, not of
arity four, or of arity four with all three numeric fields parsing. -/
def lineOk (l : PyStr) : Bool :=
  isBlank l ||
    (match splitBy isPipe l with
     | [_, d, sz, mt] => (parseInt d).isSome && (parseInt sz).isSome && (parseInt mt).isSome
     | _ => true)

/-- The speed field of one task in `API.get_progress` (Client.py lines
101-110): zero when the task has no start time yet or when less than
0.1 seconds (exclusive) have elapsed, otherwise
`downloaded / elapsed / (1024*1024)` megabytes per second.  Wall-clock
times are modelled as rationals; the 2-decimal display rounding of the
surrounding dict literal is presentation and not modelled. -/
def get_progress_speed (downloaded : Nat) (start_time : Option ℚ) (now : ℚ) : ℚ :=
  match start_time with
  | none => 0
  | some st =>
    if now - st > 1 / 10 then (downloaded : ℚ) / (now - st) / (1024 * 1024) else 0

deriving instance DecidableEq for Except

/-- `splitBy` always yields at least one fragment. -/
theorem splitBy_ne_nil (p : Char → Bool) (l : List Char) : splitBy p l ≠ [] := by
  induction l with
  | nil => simp [splitBy]
  | cons c cs ih =>
    simp only [splitBy]
    split
    · simp
    · split
      · simp
      · simp

/-- Splitting around an explicit separator splits each side
independently. -/
theorem splitBy_append_sep (p : Char → Bool) (a b : List Char) (c : Char)
    (hc : p c = true) : splitBy p (a ++ c :: b) = splitBy p a ++ splitBy p b := by
  induction a with
  | nil => simp [splitBy, hc]
  | cons x xs ih =>
    by_cases hx : p x
    · simp [splitBy, hx, ih]
    · simp only [List.cons_append, splitBy, hx, Bool.false_eq_true, if_false]
      cases h : splitBy p xs with
      | nil => exact absurd h (splitBy_ne_nil p xs)
      | cons s rest => simp only [List.append_eq]; rw [ih, h]; rfl

/-- A fragment list with no separator characters is one fragment. -/
theorem splitBy_sepFree (p : Char → Bool) (l : List Char)
    (h : ∀ c ∈ l, p c = false) : splitBy p l = [l] := by
  induction l with
  | nil => rfl
  | cons x xs ih =>
    have hx : p x = false := h x (List.mem_cons_self x xs)
    have ihx := ih (fun c hc => h c (List.mem_cons_of_mem x hc))
    simp [splitBy, hx, ihx]

/-- Fragments produced by `splitBy` contain no separator characters. -/
theorem splitBy_mem_sepFree (p : Char → Bool) (l : List Char) :
    ∀ s ∈ splitBy p l, ∀ c ∈ s, p c = false := by
  induction l with
  | nil =>
    intro s hs c hc
    simp [splitBy] at hs
    subst hs
    simp at hc
  | cons x xs ih =>
    intro s hs c hc
    by_cases hx : p x
    · simp only [splitBy, hx, if_true] at hs
      rcases List.mem_cons.mp hs with h | h
      · subst h; simp at hc
      · exact ih s h c hc
    · simp only [splitBy, hx, Bool.false_eq_true, if_false] at hs
      cases h' : splitBy p xs with
      | nil => exact absurd h' (splitBy_ne_nil p xs)
      | cons s0 rest =>
        rw [h'] at hs
        rcases List.mem_cons.mp hs with h | h
        · subst h
          rcases List.mem_cons.mp hc with h | h
          · subst h
            simpa using hx
          · exact ih s0 (h' ▸ List.mem_cons_self s0 rest) c h
        · exact ih s (h' ▸ List.mem_cons_of_mem s0 h) c hc

/-- Splitting the rendering of a non-empty, separator-free segment list
recovers the segments. -/
theorem splitBy_render (segs : List PyStr) (h1 : segs ≠ [])
    (h2 : ∀ s ∈ segs, ∀ c ∈ s, isSep c = false) :
    splitBy isSep (render segs) = segs := by
  induction segs with
  | nil => exact absurd rfl h1
  | cons s rest ih =>
    cases rest with
    | nil =>
      show splitBy isSep (render [s]) = [s]
      exact splitBy_sepFree isSep s (h2 s (List.mem_cons_self s []))
    | cons s2 r2 =>
      show splitBy isSep (s ++ '/' :: render (s2 :: r2)) = s :: s2 :: r2
      rw [splitBy_append_sep isSep s (render (s2 :: r2)) '/' (by decide)]
      rw [splitBy_sepFree isSep s (h2 s (List.mem_cons_self s (s2 :: r2)))]
      rw [ih (List.cons_ne_nil s2 r2) (fun t ht c hc => h2 t (List.mem_cons_of_mem s ht) c hc)]
      rfl

/-- Every segment that survives `normSegs` was among the input
segments. -/
theorem normSegs_mem (xs : List PyStr) : ∀ s ∈ normSegs xs, s ∈ xs := by
  have aux : ∀ (ys : List PyStr) (acc : List PyStr) (s : PyStr),
      s ∈ ys.foldl normStep acc → s ∈ acc ∨ s ∈ ys := by
    intro ys
    induction ys with
    | nil => intro acc s hs; exact Or.inl hs
    | cons y ys ih =>
      intro acc s hs
      rcases ih (normStep acc y) s hs with h | h
      · unfold normStep at h
        split at h
        · exact Or.inl h
        · split at h
          · exact Or.inl (List.dropLast_sublist acc |>.subset h)
          · rcases List.mem_append.mp h with h | h
            · exact Or.inl h
            · simp at h
              subst h
              exact Or.inr (List.mem_cons_self s ys)
      · exact Or.inr (List.mem_cons_of_mem y h)
  intro s hs
  rcases aux xs [] s hs with h | h
  · simp at h
  · exact h

/-- The central sandbox fact: whenever `safe_path` returns a path, the
root's segments are a prefix of its segments, i.e. the canonical result
is the root itself or strictly below it. -/
theorem safe_path_within (root : List PyStr) (rel : PyStr) (full : List PyStr)
    (hr : validRoot root) (h : safe_path root rel = some full) : root <+: full := by
  dsimp only [safe_path] at h
  split at h
  case isTrue hpre =>
    injection h with h
    cases root with
    | nil => exact ⟨full, rfl⟩
    | cons r0 rs =>
      have hfullSep : ∀ s ∈ full, ∀ c ∈ s, isSep c = false := by
        intro s hs c hc
        rw [← h] at hs
        rcases List.mem_append.mp (normSegs_mem _ s hs) with hmem | hmem
        · exact hr s hmem c hc
        · exact splitBy_mem_sepFree isSep (stripLeading rel) s hmem c hc
      rw [h] at hpre
      have hpre1 := List.isPrefixOf_iff_prefix.mp hpre
      rw [rootPrefixStr, if_neg (List.cons_ne_nil r0 rs)] at hpre1
      rw [renderAbs, renderAbs, List.cons_append] at hpre1
      obtain ⟨t, ht⟩ := (List.cons_prefix_cons.mp hpre1).2
      rw [List.append_assoc] at ht
      have ht' : render (r0 :: rs) ++ '/' :: t = render full := by simpa using ht
      have hfe := congrArg (splitBy isSep) ht'
      rw [splitBy_append_sep isSep _ t '/' (by decide)] at hfe
      have hrootSep : ∀ s ∈ (r0 :: rs), ∀ c ∈ s, isSep c = false := hr
      rw [splitBy_render (r0 :: rs) (List.cons_ne_nil r0 rs) hrootSep] at hfe
      have hfullne : full ≠ [] := by
        intro hnil
        rw [hnil] at ht'
        simp [render] at ht'
      rw [splitBy_render full hfullne hfullSep] at hfe
      exact ⟨splitBy isSep t, hfe⟩
  case isFalse => exact absurd h (by simp)


/-- Reading exactly the bytes sitting at the head of the stream
succeeds and leaves the rest. -/
theorem recv_exact_append (n : Nat) (l rest : List Nat) (h : l.length = n) :
    recv_exact n (l ++ rest) = .ok (l, rest) := by
  unfold recv_exact
  rw [if_pos (by simp [← h])]
  rw [List.take_left' h, List.drop_left' h]

/-- Reading from any stream equal to `pre ++ suf` with `|pre| = n`
yields `pre`. -/
theorem recv_exact_eq (n : Nat) (s pre suf : List Nat) (hs : s = pre ++ suf)
    (h : pre.length = n) : recv_exact n s = .ok (pre, suf) := by
  subst hs
  exact recv_exact_append n pre suf h

/-- Big-endian 4-byte encoding and decoding are mutually inverse below
`2 ^ 32`. -/
theorem de4_be4 (n : Nat) (h : n < 2 ^ 32) : de4 (be4 n) = n := by
  simp only [de4, be4, List.getD_cons_zero, List.getD_cons_succ]
  omega

/-- The encoded length field is 4 bytes long. -/
theorem be4_length (n : Nat) : (be4 n).length = 4 := rfl

/-- Computation of the server-side decoder on an encoded packet sitting
at the head of the stream. -/
theorem recv_packet_srv_pack (t : Nat) (p rest : List Nat) (hp : p.length < 2 ^ 32) :
    recv_packet_srv (pack t p ++ rest) = .ok ((t, p), rest) := by
  unfold recv_packet_srv pack
  rw [recv_exact_eq 4 _ MAGIC (t :: (be4 p.length ++ (p ++ rest))) (by simp) rfl]
  dsimp only
  rw [if_pos rfl]
  rw [recv_exact_eq 5 _ (t :: be4 p.length) (p ++ rest) (by simp) (by simp [be4_length])]
  dsimp only
  simp only [List.drop_succ_cons, List.drop_zero, List.getD_cons_zero]
  rw [de4_be4 p.length hp]
  rw [recv_exact_eq p.length _ p rest rfl rfl]

/-- Computation of the client-side decoder on an encoded packet sitting
at the head of the stream: identical to the server's run up to the
final check of the type byte. -/
theorem recv_packet_cli_pack (t : Nat) (p rest : List Nat) (hp : p.length < 2 ^ 32) :
    recv_packet_cli (pack t p ++ rest) =
      if t = TYPE_ERR then .error (CRecvErr.errPkt p) else .ok ((t, p), rest) := by
  unfold recv_packet_cli pack
  rw [recv_exact_eq 4 _ MAGIC (t :: (be4 p.length ++ (p ++ rest))) (by simp) rfl]
  dsimp only
  rw [if_pos rfl]
  rw [recv_exact_eq 5 _ (t :: be4 p.length) (p ++ rest) (by simp) (by simp [be4_length])]
  dsimp only
  simp only [List.drop_succ_cons, List.drop_zero, List.getD_cons_zero]
  rw [de4_be4 p.length hp]
  rw [recv_exact_eq p.length _ p rest rfl rfl]

/-- The client-side decoder never returns a packet whose type byte is
`TYPE_ERR`. -/
theorem recv_packet_cli_ne_err (s : List Nat) (t : Nat) (payload rest : List Nat)
    (h : recv_packet_cli s = .ok ((t, payload), rest)) : t ≠ TYPE_ERR := by
  unfold recv_packet_cli at h
  split at h
  · exact absurd h (by simp)
  · split at h
    · split at h
      · exact absurd h (by simp)
      · split at h
        · exact absurd h (by simp)
        · split at h
          case isTrue => exact absurd h (by simp)
          case isFalse hne =>
            injection h with h
            injection h with h1 _
            injection h1 with ht _
            rw [ht] at hne
            exact hne
    · exact absurd h (by simp)

/-- With enough fuel and the requested range inside the content, the
chunk loop emits exactly `remaining` bytes in total. -/
theorem stream_loop_sum (content : List Nat) (fuel : Nat) :
    ∀ pos remaining, remaining ≤ fuel → pos + remaining ≤ content.length →
      ((stream_loop content fuel pos remaining).map List.length).sum = remaining := by
  induction fuel with
  | zero =>
    intro pos remaining hr _
    have : remaining = 0 := Nat.le_zero.mp hr
    simp [stream_loop, this]
  | succ fuel ih =>
    intro pos remaining hr hlen
    by_cases h0 : remaining = 0
    · simp [stream_loop, h0]
    · have hC1 : CHUNK_SIZE ≥ 1 := by decide
      have hdroplen : (content.drop pos).length = content.length - pos := by
        simp [List.length_drop]
      have hchlen : ((content.drop pos).take (min CHUNK_SIZE remaining)).length
          = min CHUNK_SIZE remaining := by
        rw [List.length_take, hdroplen]
        omega
      have hchne : (content.drop pos).take (min CHUNK_SIZE remaining) ≠ [] := by
        intro hnil
        rw [hnil] at hchlen
        simp at hchlen
        omega
      simp only [stream_loop, h0, if_false]
      rw [if_neg hchne]
      simp only [List.map_cons, List.sum_cons, hchlen]
      rw [ih (pos + min CHUNK_SIZE remaining) (remaining - min CHUNK_SIZE remaining)
        (by omega) (by omega)]
      omega

/-- Every chunk the loop emits carries at most `CHUNK_SIZE` bytes,
unconditionally. -/
theorem stream_loop_le (content : List Nat) (fuel : Nat) :
    ∀ pos remaining,
      (stream_loop content fuel pos remaining).all (fun c => c.length ≤ CHUNK_SIZE) = true := by
  induction fuel with
  | zero => intro pos remaining; simp [stream_loop]
  | succ fuel ih =>
    intro pos remaining
    by_cases h0 : remaining = 0
    · simp [stream_loop, h0]
    · simp only [stream_loop, h0, if_false]
      by_cases hch : (content.drop pos).take (min CHUNK_SIZE remaining) = []
      · rw [if_pos hch]; rfl
      · rw [if_neg hch]
        simp only [List.all_cons, Bool.and_eq_true]
        refine ⟨?_, ih _ _⟩
        simp only [decide_eq_true_eq, List.length_take]
        omega

/-- The clipped end never exceeds the file size and is never
negative. -/
theorem clip_end_bounds (fileSize : Nat) (ei : Int) :
    0 ≤ clip_end fileSize ei ∧ clip_end fileSize ei ≤ (fileSize : Int) := by
  unfold clip_end
  split <;> omega

/-- Dissection of a successful GET: the handler got a three-field
payload, a sandbox-approved path to a regular file and two parsed
bounds, and its output is exactly the clipped range with its chunk
stream. -/
theorem handle_get_ok (fs : FS) (root : List PyStr) (payload : PyStr) (out : GetOut)
    (h : handle_get fs root payload = .ok out) :
    ∃ path startStr endStr full si ei,
      splitBy isPipe payload = [path, startStr, endStr] ∧
      safe_path root path = some full ∧
      fs.isfile full = true ∧
      parseInt startStr = some si ∧
      parseInt endStr = some ei ∧
      out = { full := full
              fileSize := (fs.content full).length
              startPos := (clip_start si).toNat
              endPos := (clip_end (fs.content full).length ei).toNat
              chunks :=
                if clip_start si < clip_end (fs.content full).length ei then
                  stream_chunks (fs.content full) (clip_start si).toNat
                    (clip_end (fs.content full).length ei - clip_start si).toNat
                else [] } := by
  unfold handle_get at h
  split at h
  case h_1 path startStr endStr hsplit =>
    split at h
    case h_1 full hsp =>
      split at h
      case isTrue hfile =>
        split at h
        case h_1 si ei hsi hei =>
          injection h with h
          exact ⟨path, startStr, endStr, full, si, ei, hsplit, hsp, hfile, hsi, hei, h.symm⟩
        case h_2 => exact absurd h (by simp)
      case isFalse => exact absurd h (by simp)
    case h_2 => exact absurd h (by simp)
  case h_2 => exact absurd h (by simp)

/-- Skipping children whose stat fails is filtering: the listing is the
stat-successful names in order, each mapped to its record. -/
theorem filterMap_entryOf (fs : FS) (full : List PyStr) (names : List PyStr) :
    names.filterMap (entryOf fs full) =
      (names.filter (fun n => (fs.stat (full ++ [n])).isSome)).map (entryVal fs full) := by
  induction names with
  | nil => rfl
  | cons n ns ih =>
    by_cases hst : (fs.stat (full ++ [n])).isSome
    · obtain ⟨st, hsome⟩ := Option.isSome_iff_exists.mp hst
      simp only [List.filterMap_cons, List.filter_cons, hst, if_pos, List.map_cons]
      rw [show entryOf fs full n = some (entryVal fs full n) by
        unfold entryOf entryVal
        rw [hsome]]
      rw [ih]
    · have hnone : fs.stat (full ++ [n]) = none := Option.not_isSome_iff_eq_none.mp hst
      simp only [List.filterMap_cons, List.filter_cons, hst]
      rw [show entryOf fs full n = none by unfold entryOf; rw [hnone]]
      simp only [Bool.false_eq_true, if_false]
      exact ih

/-- When every line is processable (`lineOk`), the record loop succeeds
and keeps exactly the non-blank four-field lines, in order. -/
theorem parse_lines_ok (lines : List PyStr) (h : ∀ l ∈ lines, lineOk l = true) :
    parse_lines lines = some ((lines.filter keepLine).map lineEntry) := by
  induction lines with
  | nil => rfl
  | cons line rest ih =>
    have hline := h line (List.mem_cons_self line rest)
    have ihr := ih (fun l hl => h l (List.mem_cons_of_mem line hl))
    by_cases hb : isBlank line
    · have hkeep : keepLine line = false := by simp [keepLine, hb]
      simp only [parse_lines, hb, if_pos, List.filter_cons, hkeep, Bool.false_eq_true, if_false]
      exact ihr
    · simp only [parse_lines, hb, Bool.false_eq_true, if_false]
      unfold lineOk at hline
      rw [Bool.eq_false_iff.mpr hb] at hline
      simp only [Bool.false_or] at hline
      cases hsp : splitBy isPipe line with
      | nil => exact absurd hsp (splitBy_ne_nil isPipe line)
      | cons f0 fs0 =>
        rw [hsp] at hline
        by_cases h4 : ∃ d sz mt, fs0 = [d, sz, mt]
        · obtain ⟨d, sz, mt, hfs⟩ := h4
          subst hfs
          simp only [Bool.and_eq_true, Option.isSome_iff_exists] at hline
          obtain ⟨⟨⟨di, hdi⟩, szi, hszi⟩, mti, hmti⟩ := hline
          have hkeep : keepLine line = true := by
            simp [keepLine, hb, hsp]
          have hle : lineEntry line = { name := f0, dir := di != 0, size := szi, mtime := mti } := by
            unfold lineEntry
            rw [hsp]
            dsimp only
            rw [hdi, hszi, hmti]
          dsimp only
          rw [hdi, hszi, hmti]
          dsimp only
          rw [ihr]
          simp [List.filter_cons, hkeep, hle]
        · have hkeep : keepLine line = false := by
            unfold keepLine
            rw [Bool.eq_false_iff.mpr hb]
            simp only [Bool.not_false, Bool.true_and]
            refine decide_eq_false ?_
            intro hlen
            rw [hsp] at hlen
            simp only [List.length_cons] at hlen
            have h3 : fs0.length = 3 := by omega
            obtain ⟨d, sz, mt, hfs⟩ := List.length_eq_three.mp h3
            exact h4 ⟨d, sz, mt, hfs⟩
          simp only [List.filter_cons, hkeep, Bool.false_eq_true, if_false]
          match fs0, h4 with
          | [], _ => exact ihr
          | [a], _ => exact ihr
          | [a, b], _ => exact ihr
          | [a, b, c], h4x => exact absurd ⟨a, b, c, rfl⟩ h4x
          | a :: b :: c :: e :: tl, _ => exact ihr

/-- Sample file name used by concrete witnesses. -/
def aTxt : PyStr := "a.txt".toList

/-- Sample sub-directory name used by concrete witnesses. -/
def subDir : PyStr := "sub".toList

/-- Sample child whose stat fails, used by concrete witnesses. -/
def badChild : PyStr := "bad".toList

/-- The children of the sample root directory. -/
def sampleNames : List PyStr := [aTxt, badChild, subDir]

/-- A small concrete filesystem for witnesses: the root directory holds
a 10-byte file `a.txt`, an unstattable child `bad`, and an empty
directory `sub`. -/
def sampleFS : FS :=
  { isdir := fun p => p = ROOT || p = [subDir]
    isfile := fun p => p = [aTxt]
    listdir := fun p => if p = ROOT then some sampleNames else none
    stat := fun p =>
      if p = [aTxt] then some { st_size := 10, st_mtime := 100 }
      else if p = [subDir] then some { st_size := 0, st_mtime := 200 }
      else none
    content := fun p => if p = [aTxt] then [0, 1, 2, 3, 4, 5, 6, 7, 8, 9] else [] }

/-- C1: for every client-supplied relative path, `safe_path` either
fails or returns a path inside the server root (the root itself or the
root plus further segments); consequently the GET handler only ever
opens, sizes and streams a path inside the root, and `list_dir` lists
nothing at all when resolution fails.  Proved for every root whose
segments are separator-free, which includes the configured `ROOT`. -/
theorem safe_path_never_escapes_root (root : List PyStr) (rel payload : PyStr) (fs : FS)
    (hr : validRoot root) :
    withinRoot root (safe_path root rel) ∧
    withinRoot root (getOpened fs root payload) ∧
    (safe_path root rel = none → list_dir fs root rel = []) := by
  refine ⟨?_, ?_, ?_⟩
  · unfold withinRoot
    cases hsp : safe_path root rel with
    | none => trivial
    | some full => exact safe_path_within root rel full hr hsp
  · unfold withinRoot getOpened
    cases hg : handle_get fs root payload with
    | error e => trivial
    | ok out =>
      obtain ⟨path, s1, s2, full, si, ei, _, hsp, _, _, _, hout⟩ :=
        handle_get_ok fs root payload out hg
      dsimp only
      rw [hout]
      exact safe_path_within root path full hr hsp
  · intro hnone
    unfold list_dir
    rw [hnone]

/-- C1 witness: the containment at a concrete root, traversal path, GET
payload and filesystem. -/
theorem safe_path_never_escapes_root_witness :
    withinRoot ["srv".toList] (safe_path ["srv".toList] ("../../etc".toList)) ∧
    withinRoot ["srv".toList] (getOpened sampleFS ["srv".toList] ("a.txt|0|-1".toList)) ∧
    (safe_path ["srv".toList] ("../../etc".toList) = none →
      list_dir sampleFS ["srv".toList] ("../../etc".toList) = []) :=
  safe_path_never_escapes_root ["srv".toList] ("../../etc".toList) ("a.txt|0|-1".toList)
    sampleFS (by decide)

/-- C2 counterexample: the claim quantifies over every message type
byte and names the client-side `recv_packet` among its decoders, but
the client-side decoder does not return the packet for the reserved
error type: decoding `pack(TYPE_ERR, b"B")` raises instead of returning
`(TYPE_ERR, b"B")`. -/
theorem client_roundtrip_fails_on_err :
    recv_packet_cli (pack TYPE_ERR [66]) ≠ .ok ((TYPE_ERR, [66]), []) := by decide

/-- C2 (amended): for every type byte below 256 and payload shorter
than `2^32`, the server-side decoder returns exactly the encoded type
and payload (for every type, the reserved error type included), and the
client-side decoders do the same for every type byte other than the
reserved error type. -/
theorem pack_recv_roundtrip (t : Nat) (p rest : List Nat)
    (_ht : t < 256) (hp : p.length < 2 ^ 32) :
    recv_packet_srv (pack t p ++ rest) = .ok ((t, p), rest) ∧
    (t ≠ TYPE_ERR → recv_packet_cli (pack t p ++ rest) = .ok ((t, p), rest)) := by
  refine ⟨recv_packet_srv_pack t p rest hp, fun hne => ?_⟩
  rw [recv_packet_cli_pack t p rest hp, if_neg hne]

/-- C2 witness: the round trip at a concrete packet. -/
theorem pack_recv_roundtrip_witness :
    recv_packet_srv (pack 5 [1, 2, 3] ++ [9]) = .ok ((5, [1, 2, 3]), [9]) ∧
    (5 ≠ TYPE_ERR → recv_packet_cli (pack 5 [1, 2, 3] ++ [9]) = .ok ((5, [1, 2, 3]), [9])) :=
  pack_recv_roundtrip 5 [1, 2, 3] [9] (by decide) (by decide)

/-- C3 counterexample: the claim says every decode implementation in
the system, the server-side one included, fails on a packet of the
reserved error type; but the server-side `recv_packet` has no such
check and hands the ERR packet to its caller as a normal result. -/
theorem server_decode_returns_err_packet :
    recv_packet_srv (pack TYPE_ERR [98, 111, 111, 109]) =
      .ok ((TYPE_ERR, [98, 111, 111, 109]), []) := by decide

/-- C3 (amended): the client-side decoders (Client.py and
CLI-Client.py) fail on a packet of the reserved error type, surfacing
its payload as the error, and never return an ERR packet as a normal
result; the server-side decoder, by contrast, returns it normally (see
the counterexample). -/
theorem client_decode_rejects_err (p rest s : List Nat) (t : Nat) (payload rest2 : List Nat)
    (hp : p.length < 2 ^ 32) :
    recv_packet_cli (pack TYPE_ERR p ++ rest) = .error (CRecvErr.errPkt p) ∧
    (recv_packet_cli s = .ok ((t, payload), rest2) → t ≠ TYPE_ERR) := by
  refine ⟨?_, recv_packet_cli_ne_err s t payload rest2⟩
  rw [recv_packet_cli_pack TYPE_ERR p rest hp, if_pos rfl]

/-- C3 witness: the rejection at a concrete ERR packet and a concrete
well-formed stream. -/
theorem client_decode_rejects_err_witness :
    recv_packet_cli (pack TYPE_ERR [66] ++ [1]) = .error (CRecvErr.errPkt [66]) ∧
    (recv_packet_cli [76, 68, 84, 49, 5, 0, 0, 0, 1, 33] = .ok ((5, [33]), []) → 5 ≠ TYPE_ERR) :=
  client_decode_rejects_err [66] [1] [76, 68, 84, 49, 5, 0, 0, 0, 1, 33] 5 [33] [] (by decide)

/-- C4: under the configured drive root, resolving `"/"` (or the empty
string) canonicalises to the root itself and succeeds, so LIST `"/"`
returns the records of the root directory's children; and with this
separator-terminated root the prefix check accepts every canonical
result, so the sandbox never raises at all — in particular it raises
only when the canonical result is neither the root nor below it. -/
theorem slash_resolves_to_root (fs : FS) (rel : PyStr) (names : List PyStr)
    (hdir : fs.isdir ROOT = true) (hls : fs.listdir ROOT = some names) :
    safe_path ROOT ("/".toList) = some ROOT ∧
    safe_path ROOT [] = some ROOT ∧
    (safe_path ROOT rel).isSome = true ∧
    list_dir fs ROOT ("/".toList) =
      (names.filter (fun n => (fs.stat (ROOT ++ [n])).isSome)).map (entryVal fs ROOT) := by
  refine ⟨by decide, by decide, ?_, ?_⟩
  · have hcond : (rootPrefixStr ROOT).isPrefixOf
        (renderAbs (normSegs (ROOT ++ splitBy isSep (stripLeading rel)))) = true := by
      rw [List.isPrefixOf_iff_prefix]
      show (['/'] : List Char) <+: renderAbs (normSegs (ROOT ++ splitBy isSep (stripLeading rel)))
      exact ⟨render (normSegs (ROOT ++ splitBy isSep (stripLeading rel))), rfl⟩
    dsimp only [safe_path]
    rw [if_pos hcond]
    rfl
  · have hsp : safe_path ROOT ("/".toList) = some ROOT := by decide
    unfold list_dir
    rw [hsp]
    dsimp only
    rw [hdir, if_pos rfl, hls]
    dsimp only
    exact filterMap_entryOf fs ROOT names

/-- C4 witness: at the sample filesystem the root listing of `"/"`
is the stat-successful children's records. -/
theorem slash_resolves_to_root_witness :
    safe_path ROOT ("/".toList) = some ROOT ∧
    safe_path ROOT [] = some ROOT ∧
    (safe_path ROOT ("deep/../path".toList)).isSome = true ∧
    list_dir sampleFS ROOT ("/".toList) =
      (sampleNames.filter (fun n => (sampleFS.stat (ROOT ++ [n])).isSome)).map
        (entryVal sampleFS ROOT) :=
  slash_resolves_to_root sampleFS ("deep/../path".toList) sampleNames (by decide) (by decide)

/-- C5 counterexample: the claimed invariant `start <= end_effective`
fails at file size 10, requested start 5 and requested end 3: the start
is never clipped downwards and the requested end is kept, leaving the
clipped end strictly below the start. -/
theorem clip_invariant_fails : ¬ clip_start 5 ≤ clip_end 10 3 := by decide

/-- C5 (amended): the effective end is the file size whenever the
requested end is negative or beyond the file size, and is kept exactly
whenever it lies in `[0, S]` (in particular in `[start, S)`); after
clipping `0 <= end_effective <= fileSize` always holds, and
`start <= end_effective` holds provided the start does not exceed the
file size and the requested end is negative or at least the start —
but not in general, as the counterexample shows. -/
theorem clip_range_spec (S : Nat) (si ei : Int) :
    (ei < 0 ∨ ei > (S : Int) → clip_end S ei = (S : Int)) ∧
    (0 ≤ ei → ei ≤ (S : Int) → clip_end S ei = ei) ∧
    (0 ≤ clip_end S ei ∧ clip_end S ei ≤ (S : Int)) ∧
    (clip_start si ≤ (S : Int) → ei < 0 ∨ clip_start si ≤ ei →
      clip_start si ≤ clip_end S ei) := by
  unfold clip_end clip_start
  refine ⟨?_, ?_, ?_, ?_⟩
  · intro hcond
    rw [if_pos hcond]
  · intro h0 hS
    rw [if_neg (by omega)]
  · constructor <;> (split <;> omega)
  · intro hle hcond
    split <;> omega

/-- C5 witness: the clipping rules at file size 10, start 4 and
requested end -1. -/
theorem clip_range_spec_witness :
    ((-1 : Int) < 0 ∨ (-1 : Int) > (10 : Int) → clip_end 10 (-1) = (10 : Int)) ∧
    (0 ≤ (-1 : Int) → (-1 : Int) ≤ (10 : Int) → clip_end 10 (-1) = (-1 : Int)) ∧
    (0 ≤ clip_end 10 (-1) ∧ clip_end 10 (-1) ≤ (10 : Int)) ∧
    (clip_start 4 ≤ (10 : Int) → (-1 : Int) < 0 ∨ clip_start 4 ≤ (-1 : Int) →
      clip_start 4 ≤ clip_end 10 (-1)) :=
  clip_range_spec 10 4 (-1)

/-- C6: whenever the GET handler succeeds, the payload lengths of the
emitted chunk packets sum to exactly the clipped range's width
`end - start`, and every chunk carries at most `CHUNK_SIZE` (1 MiB)
bytes.  In the model the file content does not change underneath the
handler, so no short read occurs and the completeness is
unconditional. -/
theorem get_stream_complete (fs : FS) (root : List PyStr) (payload : PyStr) (out : GetOut)
    (h : handle_get fs root payload = .ok out) :
    ((out.chunks.map List.length).sum = out.endPos - out.startPos) ∧
    (out.chunks.all (fun c => c.length ≤ CHUNK_SIZE) = true) := by
  obtain ⟨path, s1, s2, full, si, ei, _, _, _, _, _, hout⟩ :=
    handle_get_ok fs root payload out h
  subst hout
  dsimp only
  have hs0 : (0 : Int) ≤ clip_start si := le_max_left 0 si
  have hb := clip_end_bounds (fs.content full).length ei
  constructor
  · by_cases hlt : clip_start si < clip_end (fs.content full).length ei
    · rw [if_pos hlt]
      unfold stream_chunks
      rw [stream_loop_sum (fs.content full) _ _ _ (le_refl _) (by omega)]
      omega
    · rw [if_neg hlt]
      simp only [List.map_nil, List.sum_nil]
      omega
  · by_cases hlt : clip_start si < clip_end (fs.content full).length ei
    · rw [if_pos hlt]
      exact stream_loop_le (fs.content full) _ _ _
    · rw [if_neg hlt]
      rfl

/-- The GET output of the sample full-range request on the sample
10-byte file. -/
def sampleOut : GetOut :=
  { full := [aTxt], fileSize := 10, startPos := 0, endPos := 10
    chunks := [[0, 1, 2, 3, 4, 5, 6, 7, 8, 9]] }

/-- C6 witness: the completeness at a concrete full-range GET. -/
theorem get_stream_complete_witness :
    ((sampleOut.chunks.map List.length).sum = sampleOut.endPos - sampleOut.startPos) ∧
    (sampleOut.chunks.all (fun c => c.length ≤ CHUNK_SIZE) = true) :=
  get_stream_complete sampleFS ROOT ("a.txt|0|-1".toList) sampleOut (by decide)

/-- C7: `list_dir` never raises: it returns the empty list when the
sandbox rejects the path, when the target is not a directory, or when
enumerating the directory raises; and a child whose stat fails is
skipped while every other child is still listed, in order. -/
theorem list_dir_empty_or_skips (fs : FS) (root : List PyStr) (rel : PyStr)
    (full : List PyStr) (names : List PyStr) :
    (safe_path root rel = none → list_dir fs root rel = []) ∧
    (safe_path root rel = some full → fs.isdir full = false → list_dir fs root rel = []) ∧
    (safe_path root rel = some full → fs.listdir full = none → list_dir fs root rel = []) ∧
    (safe_path root rel = some full → fs.isdir full = true → fs.listdir full = some names →
      list_dir fs root rel =
        (names.filter (fun n => (fs.stat (full ++ [n])).isSome)).map (entryVal fs full)) := by
  refine ⟨?_, ?_, ?_, ?_⟩
  · intro hnone
    unfold list_dir
    rw [hnone]
  · intro hsp hdir
    unfold list_dir
    rw [hsp]
    dsimp only
    rw [hdir]
    rfl
  · intro hsp hls
    unfold list_dir
    rw [hsp]
    dsimp only
    cases hdir : fs.isdir full with
    | false => rfl
    | true =>
      rw [if_pos rfl, hls]
  · intro hsp hdir hls
    unfold list_dir
    rw [hsp]
    dsimp only
    rw [hdir, if_pos rfl, hls]
    dsimp only
    exact filterMap_entryOf fs full names

/-- C7 witness: at the sample filesystem the unstattable child `bad` is
skipped while `a.txt` and `sub` are listed. -/
theorem list_dir_empty_or_skips_witness :
    (safe_path ROOT ("/".toList) = none → list_dir sampleFS ROOT ("/".toList) = []) ∧
    (safe_path ROOT ("/".toList) = some ROOT → sampleFS.isdir ROOT = false →
      list_dir sampleFS ROOT ("/".toList) = []) ∧
    (safe_path ROOT ("/".toList) = some ROOT → sampleFS.listdir ROOT = none →
      list_dir sampleFS ROOT ("/".toList) = []) ∧
    (safe_path ROOT ("/".toList) = some ROOT → sampleFS.isdir ROOT = true →
      sampleFS.listdir ROOT = some sampleNames →
      list_dir sampleFS ROOT ("/".toList) =
        (sampleNames.filter (fun n => (sampleFS.stat (ROOT ++ [n])).isSome)).map
          (entryVal sampleFS ROOT)) :=
  list_dir_empty_or_skips sampleFS ROOT ("/".toList) ROOT sampleNames

/-- C8 counterexample: the claim says the reported speed is downloaded
bytes divided by elapsed time, but the code divides additionally by
1 MiB (it reports megabytes per second): after 2 seconds with 2 MiB
downloaded the snapshot reports 1, not 1048576. -/
theorem speed_not_bytes_per_elapsed :
    get_progress_speed 2097152 (some 0) 2 ≠ (2097152 : ℚ) / 2 := by
  norm_num [get_progress_speed]

/-- C8 (amended): the snapshot reports speed zero whenever the task has
no start time or at most 0.1 seconds have elapsed (so in particular
whenever less than 0.1 seconds have elapsed), and otherwise reports
`downloaded / elapsed / (1024*1024)` — megabytes per second, not bytes
per second; the division only ever happens with elapsed time above 0.1
seconds, never by zero or near-zero. -/
theorem speed_guard_spec (downloaded : Nat) (now st : ℚ) :
    get_progress_speed downloaded none now = 0 ∧
    (now - st ≤ 1 / 10 → get_progress_speed downloaded (some st) now = 0) ∧
    (now - st > 1 / 10 →
      get_progress_speed downloaded (some st) now =
        (downloaded : ℚ) / (now - st) / (1024 * 1024)) := by
  refine ⟨rfl, fun hle => ?_, fun hgt => ?_⟩
  · unfold get_progress_speed
    dsimp only
    rw [if_neg (by linarith)]
  · unfold get_progress_speed
    dsimp only
    rw [if_pos hgt]

/-- C8 witness: the guard at concrete times. -/
theorem speed_guard_spec_witness :
    get_progress_speed 5 none 1 = 0 ∧
    ((1 : ℚ) - 0 ≤ 1 / 10 → get_progress_speed 5 (some 0) 1 = 0) ∧
    ((1 : ℚ) - 0 > 1 / 10 →
      get_progress_speed 5 (some 0) 1 = (5 : ℚ) / (1 - 0) / (1024 * 1024)) :=
  speed_guard_spec 5 1 0

/-- C9: a GET on an existing regular file whose clipped end does not
exceed the (never-clipped) start — for example a start past the end of
the file — succeeds: the handler sends exactly one META packet carrying
the total file size, zero CHUNK packets, and returns to the request
loop without error, keeping the connection open. -/
theorem get_empty_range_meta_only (fs : FS) (root : List PyStr) (payload : PyStr)
    (path startStr endStr : PyStr) (full : List PyStr) (si ei : Int)
    (hsplit : splitBy isPipe payload = [path, startStr, endStr])
    (hsp : safe_path root path = some full)
    (hfile : fs.isfile full = true)
    (hsi : parseInt startStr = some si)
    (hei : parseInt endStr = some ei)
    (hrange : clip_end (fs.content full).length ei ≤ clip_start si) :
    handle_get fs root payload =
      .ok { full := full, fileSize := (fs.content full).length,
            startPos := (clip_start si).toNat,
            endPos := (clip_end (fs.content full).length ei).toNat,
            chunks := [] } ∧
    get_response
      { full := full, fileSize := (fs.content full).length,
        startPos := (clip_start si).toNat,
        endPos := (clip_end (fs.content full).length ei).toNat,
        chunks := ([] : List (List Nat)) } =
      [pack TYPE_META (natToDecimal (fs.content full).length)] := by
  constructor
  · unfold handle_get
    rw [hsplit]
    dsimp only
    rw [hsp]
    dsimp only
    rw [if_pos hfile, hsi, hei]
    dsimp only
    rw [if_neg (not_lt.mpr hrange)]
  · rfl

/-- C9 witness: a GET for `a.txt` with start 99 on the 10-byte sample
file yields one META of 10 and no chunks. -/
theorem get_empty_range_meta_only_witness :
    handle_get sampleFS ROOT ("a.txt|99|-1".toList) =
      .ok { full := [aTxt], fileSize := (sampleFS.content [aTxt]).length,
            startPos := (clip_start 99).toNat,
            endPos := (clip_end (sampleFS.content [aTxt]).length (-1)).toNat,
            chunks := [] } ∧
    get_response
      { full := [aTxt], fileSize := (sampleFS.content [aTxt]).length,
        startPos := (clip_start 99).toNat,
        endPos := (clip_end (sampleFS.content [aTxt]).length (-1)).toNat,
        chunks := ([] : List (List Nat)) } =
      [pack TYPE_META (natToDecimal (sampleFS.content [aTxt]).length)] :=
  get_empty_range_meta_only sampleFS ROOT ("a.txt|99|-1".toList)
    aTxt ("99".toList) ("-1".toList) [aTxt] 99 (-1)
    (by decide) (by decide) (by decide) (by decide) (by decide) (by decide)

/-- C10 counterexample: the claim says a malformed record is silently
dropped so well-formed records survive; but a four-field record whose
numeric field does not parse makes `int()` raise and aborts the whole
parse — the well-formed record `good|0|10|100` is lost too, while on
its own it parses fine. -/
theorem listing_parser_aborts_on_bad_int :
    parse_listing ("good|0|10|100\nbad|1|xx|5".toList) = none ∧
    parse_listing ("good|0|10|100".toList) =
      some [{ name := "good".toList, dir := false, size := 10, mtime := 100 }] := by
  constructor
  · decide
  · decide

/-- C10 (amended): blank lines and lines that do not split on `|` into
exactly four fields are silently dropped; and when every four-field
line's numeric fields parse as integers, the parser keeps exactly the
non-blank four-field lines, in order.  A four-field line with a
non-parsing numeric field instead aborts the whole listing with an
error (see the counterexample). -/
theorem listing_parser_keeps_wellformed (data : PyStr)
    (h : ∀ l ∈ splitLines data, lineOk l = true) :
    parse_listing data = some (((splitLines data).filter keepLine).map lineEntry) :=
  parse_lines_ok (splitLines data) h

/-- C10 witness: a payload with a blank line and a pipe-damaged record
parses to exactly the well-formed records. -/
theorem listing_parser_keeps_wellformed_witness :
    parse_listing ("a.txt|0|10|100\n\nweird|name|1|0|200\nsub|1|0|200".toList) =
      some (((splitLines ("a.txt|0|10|100\n\nweird|name|1|0|200\nsub|1|0|200".toList)).filter
        keepLine).map lineEntry) :=
  listing_parser_keeps_wellformed ("a.txt|0|10|100\n\nweird|name|1|0|200\nsub|1|0|200".toList)
    (by decide)
